import Mathlib

/-!
Verification development for the ZACWire / TSIC decoding stack of the
data-logger repository (`src/tsic.py`).

The first part embeds the protocol decoder `ZacWireInputChannel`
(its private state and its `__gpio_callback` edge handler) as an explicit
state machine, the second part embeds the downstream
`TsicInputChannel.__packet_received` consumer and the temperature
conversion functions `_tsic_11bit` / `_tsic_14bit` (real arithmetic is
modelled over `ℚ`).
-/

namespace DataLogger

/-- GPIO event levels as delivered by pigpio: falling edge (LOW),
rising edge (HIGH), or a watchdog TIMEOUT. -/
inductive Level where
  | low
  | high
  | timeout
deriving Repr, DecidableEq

/-- One GPIO edge event: a level change together with the microsecond tick. -/
structure Edge where
  level : Level
  tick : Nat
deriving Repr, DecidableEq

/-- pigpio's `tickDiff(t1, t2)`: wraparound-correct difference of the
free-running 32-bit microsecond counter. -/
def tickDiff (t1 t2 : Nat) : Nat :=
  if t2 < t1 then t2 + 2 ^ 32 - t1 else t2 - t1

/-- The private mutable fields of `ZacWireInputChannel` that form the
decoder state: `__last_low_tick`, `__last_high_tick`, `__bit_ticks`
(calibration pulse width), `__parity`, `__bit_count`, `__received_bytes`. -/
structure ZState where
  lastLowTick : Option Nat
  lastHighTick : Option Nat
  bitTicks : Option Nat
  parity : Nat
  bitCount : Nat
  receivedBytes : Option (List Nat)
deriving Repr, DecidableEq

/-- `ZacWireInputChannel.STATUS_OK` -/
def STATUS_OK : Nat := 0

/-- `ZacWireInputChannel.STATUS_PARITY_ERROR` -/
def STATUS_PARITY_ERROR : Nat := 1

/-- `ZacWireInputChannel.STATUS_BIT_COUNT_ERROR` -/
def STATUS_BIT_COUNT_ERROR : Nat := 2

/-- `ZacWireInputChannel.__reset_packet` -/
def reset_packet (s : ZState) : ZState :=
  { s with bitTicks := none, parity := 0, bitCount := 0, receivedBytes := none }

/-- `ZacWireInputChannel.__pass_any_packet_to_callback`: if a packet is
accumulated, emit it with the given status and clear the accumulator.
The returned list is the sequence of `(status, bytes)` callback invocations. -/
def pass_any_packet (s : ZState) (status : Nat) : ZState × List (Nat × List Nat) :=
  match s.receivedBytes with
  | some bs => ({ s with receivedBytes := none }, [(status, bs)])
  | none => (s, [])

/-- `ZacWireInputChannel.__check_parity`: on odd accumulated parity, flush
the packet as a parity error and reset the packet state. -/
def check_parity (s : ZState) : ZState × List (Nat × List Nat) :=
  if s.parity % 2 ≠ 0 then
    let r := pass_any_packet s STATUS_PARITY_ERROR
    (reset_packet r.1, r.2)
  else (s, [])

/-- Python's `bs[-1] = f(bs[-1])`: replace the last element of a list. -/
def update_last (bs : List Nat) (f : Nat → Nat) : List Nat :=
  match bs with
  | [] => []
  | [x] => [f x]
  | x :: xs => x :: update_last xs f

/-- The result of handling one GPIO event: the successor decoder state, the
packet-callback invocations it performed, and whether `set_watchdog(gpio, 1)`
was called during the event. -/
structure StepResult where
  state : ZState
  emits : List (Nat × List Nat)
  armed : Bool
deriving Repr, DecidableEq

/-- `ZacWireInputChannel.__gpio_callback`, the edge-event handler of the
ZACWire decoder, translated line by line from `src/tsic.py`. -/
def gpio_callback (s : ZState) (level : Level) (tick : Nat) : StepResult :=
  match level with
  | .low =>
    match s.lastHighTick with
    | some lht =>
      let high_ticks := tickDiff lht tick
      if high_ticks > 1000 then
        -- packet start
        let r := pass_any_packet s STATUS_OK
        let s2 := { r.1 with receivedBytes := some [0], parity := 0,
                             bitCount := 0, bitTicks := none }
        ⟨{ s2 with lastLowTick := some tick }, r.2, false⟩
      else
        match s.receivedBytes with
        | some bs =>
          if high_ticks > 150 then
            -- next byte in packet
            if s.bitCount = 9 then
              ⟨{ s with receivedBytes := some (bs ++ [0]), bitTicks := none,
                        bitCount := 0, parity := 0,
                        lastLowTick := some tick }, [], false⟩
            else
              let r := pass_any_packet s STATUS_BIT_COUNT_ERROR
              ⟨{ reset_packet r.1 with lastLowTick := some tick }, r.2, false⟩
          else
            ⟨{ s with lastLowTick := some tick }, [], false⟩
        | none => ⟨{ s with lastLowTick := some tick }, [], false⟩
    | none => ⟨{ s with lastLowTick := some tick }, [], false⟩
  | .high =>
    match s.lastLowTick with
    | some llt =>
      let low_ticks := tickDiff llt tick
      match s.receivedBytes with
      | some bs =>
        match s.bitTicks with
        | none =>
          -- calibration T-strobe at begin of byte
          ⟨{ s with bitTicks := some low_ticks, lastHighTick := some tick }, [], false⟩
        | some bt =>
          -- a 0-bit has a long low interval, a 1-bit a short low interval
          let bit := if low_ticks > bt then 0 else 1
          let bs1 := if s.bitCount < 8 then update_last bs (fun a => a * 2 + bit) else bs
          let s1 := { s with receivedBytes := some bs1,
                             bitCount := s.bitCount + 1,
                             parity := s.parity + bit }
          if s1.bitCount = 9 then
            let r := check_parity s1
            ⟨{ r.1 with lastHighTick := some tick }, r.2, true⟩
          else if s1.bitCount > 9 then
            let r := pass_any_packet s1 STATUS_BIT_COUNT_ERROR
            ⟨{ reset_packet r.1 with lastHighTick := some tick }, r.2, false⟩
          else
            ⟨{ s1 with lastHighTick := some tick }, [], false⟩
      | none => ⟨{ s with lastHighTick := some tick }, [], false⟩
    | none => ⟨{ s with lastHighTick := some tick }, [], false⟩
  | .timeout =>
    let r := pass_any_packet s STATUS_OK
    ⟨reset_packet r.1, r.2, false⟩

/-- The decoder state right after `ZacWireInputChannel.stop` (and hence
right after `start`, which calls `stop` first): everything cleared. -/
def initState : ZState := ⟨none, none, none, 0, 0, none⟩

/-- Run the decoder over a list of edge events, collecting all
packet-callback invocations in order. -/
def run_edges : ZState → List Edge → ZState × List (Nat × List Nat)
  | s, [] => (s, [])
  | s, e :: es =>
    let r := gpio_callback s e.level e.tick
    let rest := run_edges r.state es
    (rest.1, r.emits ++ rest.2)

/-!
### A well-timed ZACWire transmission

The following definitions build the edge-event sequence of a correctly
timed two-byte ZACWire packet, used to state the round-trip property.
Calibration pulses are 10 ticks wide, a 1-bit is a 5-tick low pulse, a
0-bit a 20-tick low pulse, in-byte gaps are 50 ticks, the byte-separating
gap 500 ticks and the packet-start gap 2000 ticks.
-/

/-- The low-pulse width used to transmit one bit (shorter than the 10-tick
calibration pulse for a 1, longer for a 0). -/
def bitWidth (v : Nat) : Nat := if v = 1 then 5 else 20

/-- Edge events of a run of bit pulses: each bit is a 50-tick high gap
followed by a low pulse of `bitWidth`; `t` is the tick of the previous
rising edge. -/
def bit_pulses : Nat → List Nat → List Edge
  | _, [] => []
  | t, v :: vs =>
      ⟨Level.low, t + 50⟩ :: ⟨Level.high, t + 50 + bitWidth v⟩ ::
        bit_pulses (t + 50 + bitWidth v) vs

/-- Tick of the last rising edge after transmitting the given bits. -/
def end_tick : Nat → List Nat → Nat
  | t, [] => t
  | t, v :: vs => end_tick (t + 50 + bitWidth v) vs

/-- The 8 data bits of a byte, most significant first. -/
def bitsOf (b : Nat) : List Nat :=
  [b / 128 % 2, b / 64 % 2, b / 32 % 2, b / 16 % 2,
   b / 8 % 2, b / 4 % 2, b / 2 % 2, b % 2]

/-- The even-parity bit of a byte: 1 exactly when the byte has an odd
number of 1-bits, so that all 9 transmitted bits have even 1-count. -/
def parity_bit (b : Nat) : Nat := (bitsOf b).sum % 2

/-- The 9 transmitted bits of a byte: 8 data bits plus the parity bit. -/
def byte_bits (b : Nat) : List Nat := bitsOf b ++ [parity_bit b]

/-- Edge events of one byte after its starting falling edge at tick `t`:
the rising edge closing the 10-tick calibration pulse, then the 9 bit
pulses. -/
def encode_byte (t b : Nat) : List Edge :=
  ⟨Level.high, t + 10⟩ :: bit_pulses (t + 10) (byte_bits b)

/-- The full edge-event sequence of a two-byte packet: an initial rising
edge, a 2000-tick packet-start gap, byte `b0`, a 500-tick byte gap,
byte `b1`, and the watchdog TIMEOUT ending the packet. -/
def frame_events (b0 b1 : Nat) : List Edge :=
  ⟨Level.high, 0⟩ :: ⟨Level.low, 2000⟩ ::
    (encode_byte 2000 b0 ++
      (⟨Level.low, end_tick (2000 + 10) (byte_bits b0) + 500⟩ ::
        (encode_byte (end_tick (2000 + 10) (byte_bits b0) + 500) b1 ++
          [⟨Level.timeout, end_tick (2000 + 10) (byte_bits b0) + 600⟩])))

/-! ### Basic lemmas about the embedding -/

theorem tickDiff_add (t d : Nat) : tickDiff t (t + d) = d := by
  simp [tickDiff]

theorem update_last_append (bs : List Nat) (a : Nat) (f : Nat → Nat) :
    update_last (bs ++ [a]) f = bs ++ [f a] := by
  induction bs with
  | nil => simp [update_last]
  | cons x xs ih =>
    cases xs with
    | nil => simp [update_last]
    | cons y ys => simpa [update_last] using ih

theorem update_last_length (bs : List Nat) (f : Nat → Nat) :
    (update_last bs f).length = bs.length := by
  induction bs with
  | nil => rfl
  | cons x xs ih =>
    cases xs with
    | nil => rfl
    | cons y ys => simpa [update_last] using ih

theorem run_edges_append (s : ZState) (es1 es2 : List Edge) :
    run_edges s (es1 ++ es2) =
      ((run_edges (run_edges s es1).1 es2).1,
        (run_edges s es1).2 ++ (run_edges (run_edges s es1).1 es2).2) := by
  induction es1 generalizing s with
  | nil => simp [run_edges]
  | cons e es ih => simp [run_edges, ih]

theorem run_edges_single (s : ZState) (e : Edge) :
    run_edges s [e] =
      ((gpio_callback s e.level e.tick).state, (gpio_callback s e.level e.tick).emits) := by
  simp [run_edges]

theorem bit_pulses_append (xs ys : List Nat) (t : Nat) :
    bit_pulses t (xs ++ ys) = bit_pulses t xs ++ bit_pulses (end_tick t xs) ys := by
  induction xs generalizing t with
  | nil => simp [bit_pulses, end_tick]
  | cons v vs ih => simp [bit_pulses, end_tick, ih]

theorem end_tick_append (xs ys : List Nat) (t : Nat) :
    end_tick t (xs ++ ys) = end_tick (end_tick t xs) ys := by
  induction xs generalizing t with
  | nil => simp [end_tick]
  | cons v vs ih => simp [end_tick, ih]

/-! ### Single-event step lemmas for `gpio_callback` -/

/-- A falling edge after a short high gap (at most 150 ticks) only records
the new low tick. -/
theorem step_low_small (ll btk : Option Nat) (p k t g : Nat) (rb : Option (List Nat))
    (hg : g ≤ 150) :
    gpio_callback ⟨ll, some t, btk, p, k, rb⟩ Level.low (t + g) =
      ⟨⟨some (t + g), some t, btk, p, k, rb⟩, [], false⟩ := by
  have h1 : ¬ 1000 < g := by omega
  have h2 : ¬ 150 < g := by omega
  cases rb <;> simp [gpio_callback, tickDiff_add, h1, h2]

/-- A rising edge while a byte awaits its calibration pulse records the
low-pulse width as calibration width. -/
theorem step_high_cal (lh : Option Nat) (p k t w : Nat) (bs : List Nat) :
    gpio_callback ⟨some t, lh, none, p, k, some bs⟩ Level.high (t + w) =
      ⟨⟨some t, some (t + w), some w, p, k, some bs⟩, [], false⟩ := by
  simp [gpio_callback, tickDiff_add]

/-- A rising edge closing a data-bit pulse (bit count below 8) decodes the
bit against the calibration width and shifts it into the active byte. -/
theorem step_high_data (lh : Option Nat) (p k t w bt : Nat) (bs : List Nat) (hk : k < 8) :
    gpio_callback ⟨some t, lh, some bt, p, k, some bs⟩ Level.high (t + w) =
      ⟨⟨some t, some (t + w), some bt, p + (if bt < w then 0 else 1), k + 1,
          some (update_last bs (fun a => a * 2 + (if bt < w then 0 else 1)))⟩, [], false⟩ := by
  have h9 : ¬ (k + 1 = 9) := by omega
  have h9b : ¬ (k + 1 > 9) := by omega
  simp [gpio_callback, tickDiff_add, hk, h9, h9b]

/-- A rising edge closing the ninth pulse of a byte with resulting even
parity leaves the byte intact and arms the watchdog. -/
theorem step_high_parity_even (lh : Option Nat) (p t w bt : Nat) (bs : List Nat)
    (hp : (p + (if bt < w then 0 else 1)) % 2 = 0) :
    gpio_callback ⟨some t, lh, some bt, p, 8, some bs⟩ Level.high (t + w) =
      ⟨⟨some t, some (t + w), some bt, p + (if bt < w then 0 else 1), 9, some bs⟩, [], true⟩ := by
  simp [gpio_callback, tickDiff_add, check_parity, hp]

/-- A rising edge closing the ninth pulse of a byte with resulting odd
parity flushes the frame as a parity error, resets the packet state, and
still arms the watchdog. -/
theorem step_high_parity_odd (lh : Option Nat) (p t w bt : Nat) (bs : List Nat)
    (hp : (p + (if bt < w then 0 else 1)) % 2 ≠ 0) :
    gpio_callback ⟨some t, lh, some bt, p, 8, some bs⟩ Level.high (t + w) =
      ⟨⟨some t, some (t + w), none, 0, 0, none⟩, [(STATUS_PARITY_ERROR, bs)], true⟩ := by
  simp [gpio_callback, tickDiff_add, check_parity, pass_any_packet, reset_packet, hp]

/-! ### Processing whole bit runs and bytes -/

/-- Running a sequence of data-bit pulses (at most up to the eighth bit of
the byte) decodes exactly the encoded bits: the active byte is shifted
accordingly, the bit counter advances by the number of pulses, the parity
accumulator adds their sum, and no packet is emitted. -/
theorem run_bit_pulses (bits : List Nat) (t p k a : Nat) (bs : List Nat) (ll : Option Nat)
    (hv : ∀ v ∈ bits, v ≤ 1) (hk : k + bits.length ≤ 8) :
    ∃ ll2, run_edges ⟨ll, some t, some 10, p, k, some (bs ++ [a])⟩ (bit_pulses t bits) =
      (⟨ll2, some (end_tick t bits), some 10, p + bits.sum, k + bits.length,
        some (bs ++ [bits.foldl (fun x v => x * 2 + v) a])⟩, []) := by
  induction bits generalizing t p k a ll with
  | nil =>
    exact ⟨ll, by simp [run_edges, end_tick, bit_pulses]⟩
  | cons v vs ih =>
    have hv0 : v ≤ 1 := hv v (by simp)
    have hk0 : k < 8 := by simp at hk; omega
    have hbit : (if 10 < bitWidth v then 0 else 1) = v := by
      interval_cases v <;> simp [bitWidth]
    obtain ⟨ll2, hrec⟩ := ih (t + 50 + bitWidth v) (p + v) (k + 1) (a * 2 + v) (some (t + 50))
      (fun u hu => hv u (by simp [hu])) (by simp at hk ⊢; omega)
    refine ⟨ll2, ?_⟩
    rw [bit_pulses, run_edges, step_low_small ll (some 10) p k t 50 (some (bs ++ [a])) (by omega)]
    rw [run_edges, step_high_data (some t) p k (t + 50) (bitWidth v) 10 (bs ++ [a]) hk0]
    rw [hbit, update_last_append]
    rw [hrec]
    simp [end_tick, add_assoc]
    omega

theorem bitsOf_le_one (b : Nat) : ∀ v ∈ bitsOf b, v ≤ 1 := by
  intro v hv
  simp [bitsOf] at hv
  rcases hv with h | h | h | h | h | h | h | h <;> omega

theorem bitsOf_length (b : Nat) : (bitsOf b).length = 8 := by
  simp [bitsOf]

/-- Shifting in the 8 bits of `bitsOf b`, most significant first,
reconstructs `b`. -/
theorem foldl_bitsOf (b : Nat) (hb : b < 256) :
    (bitsOf b).foldl (fun x v => x * 2 + v) 0 = b := by
  simp [bitsOf]
  omega

theorem parity_bit_le_one (b : Nat) : parity_bit b ≤ 1 := by
  simp only [parity_bit]
  omega

/-- Running one encoded byte from a byte-start state (calibration width
cleared, bit counter and parity zero, a fresh `0` appended to the byte
accumulator) decodes exactly that byte, ends with bit count 9 and even
accumulated parity, and emits nothing. -/
theorem run_encode_byte (b : Nat) (hb : b < 256) (t : Nat) (lh : Option Nat) (bs : List Nat) :
    ∃ ll2, run_edges ⟨some t, lh, none, 0, 0, some (bs ++ [0])⟩ (encode_byte t b) =
      (⟨ll2, some (end_tick (t + 10) (byte_bits b)), some 10,
        (bitsOf b).sum + parity_bit b, 9, some (bs ++ [b])⟩, []) := by
  have hpb : (if 10 < bitWidth (parity_bit b) then 0 else 1) = parity_bit b := by
    rcases Nat.le_one_iff_eq_zero_or_eq_one.mp (parity_bit_le_one b) with h | h <;>
      rw [h] <;> simp [bitWidth]
  have hsum : ((bitsOf b).sum + (if 10 < bitWidth (parity_bit b) then 0 else 1)) % 2 = 0 := by
    rw [hpb]
    simp only [parity_bit]
    omega
  obtain ⟨ll2, hbits⟩ := run_bit_pulses (bitsOf b) (t + 10) 0 0 0 bs (some t)
    (bitsOf_le_one b) (by rw [bitsOf_length])
  rw [foldl_bitsOf b hb, Nat.zero_add, Nat.zero_add, bitsOf_length] at hbits
  refine ⟨some (end_tick (t + 10) (bitsOf b) + 50), ?_⟩
  have hpar : run_edges ⟨ll2, some (end_tick (t + 10) (bitsOf b)), some 10,
      (bitsOf b).sum, 8, some (bs ++ [b])⟩ (bit_pulses (end_tick (t + 10) (bitsOf b)) [parity_bit b]) =
      (⟨some (end_tick (t + 10) (bitsOf b) + 50),
        some (end_tick (t + 10) (bitsOf b) + 50 + bitWidth (parity_bit b)), some 10,
        (bitsOf b).sum + parity_bit b, 9, some (bs ++ [b])⟩, []) := by
    rw [bit_pulses, bit_pulses, run_edges,
        step_low_small ll2 (some 10) (bitsOf b).sum 8 (end_tick (t + 10) (bitsOf b)) 50
          (some (bs ++ [b])) (by omega),
        run_edges,
        step_high_parity_even (some (end_tick (t + 10) (bitsOf b)))
          (bitsOf b).sum (end_tick (t + 10) (bitsOf b) + 50) (bitWidth (parity_bit b)) 10
          (bs ++ [b]) hsum,
        hpb, run_edges]
    simp
  rw [encode_byte, byte_bits, bit_pulses_append, run_edges,
      step_high_cal lh 0 0 t 10 (bs ++ [0]), run_edges_append, hbits, hpar,
      end_tick_append]
  simp [end_tick]

end DataLogger

namespace DataLogger

/-!
### The TSIC layer (`Measurement`, `TsicType`, `TsicInputChannel`)

Real-number arithmetic of the Python implementation is modelled over `ℚ`.
-/

/-- `Measurement`: temperature in degrees Celsius plus the timestamp in
seconds since the epoch; the undefined sentinel has both fields `none`. -/
structure Measurement where
  degree_celsius : Option ℚ
  seconds_since_epoch : Option ℚ
deriving Repr, DecidableEq

/-- `Measurement.UNDEF`, the undefined measurement. -/
def Measurement.UNDEF : Measurement := ⟨none, none⟩

/-- The linear raw-to-Celsius mapping shared by the conversion functions:
`raw / d * (ht - lt) + lt`, where `d` is `2 ^ bits - 1`. -/
def tsic_raw_to_celsius (d ht lt raw : ℚ) : ℚ := raw / d * (ht - lt) + lt

/-- `_tsic_11bit(packet_bytes, ht, lt)`:
`(packet_bytes[0] * 256 + packet_bytes[1]) / 2047 * (ht - lt) + lt`. -/
def _tsic_11bit (packet_bytes : List Nat) (ht lt : ℚ) : ℚ :=
  tsic_raw_to_celsius 2047 ht lt
    ((packet_bytes.getD 0 0 * 256 + packet_bytes.getD 1 0 : Nat) : ℚ)

/-- `_tsic_14bit(packet_bytes, ht, lt)`:
`(packet_bytes[0] * 256 + packet_bytes[1]) / 16383 * (ht - lt) + lt`. -/
def _tsic_14bit (packet_bytes : List Nat) (ht lt : ℚ) : ℚ :=
  tsic_raw_to_celsius 16383 ht lt
    ((packet_bytes.getD 0 0 * 256 + packet_bytes.getD 1 0 : Nat) : ℚ)

/-- `TsicType`: a sensor type name together with its byte-to-Celsius
conversion (`bytes_to_degree_celcius`, spelled as in the source). -/
structure TsicType where
  name : String
  bytes_to_degree_celcius : List Nat → ℚ

/-- `TSIC206`: range [-50, 150] at 11-bit resolution. -/
def TSIC206 : TsicType := ⟨"TSic 206/306", fun pb => _tsic_11bit pb 150 (-50)⟩

/-- `TSIC306 = TSIC206`. -/
def TSIC306 : TsicType := TSIC206

/-- `TSIC506`: range [-10, 60] at 11-bit resolution. -/
def TSIC506 : TsicType := ⟨"TSic 506", fun pb => _tsic_11bit pb 60 (-10)⟩

/-- `TSIC716`: range [-10, 60] at 14-bit resolution. -/
def TSIC716 : TsicType := ⟨"TSic 716", fun pb => _tsic_14bit pb 60 (-10)⟩

/-- The calibration table of the source: for each defined profile the
divisor `2 ^ bits - 1` together with the high and low temperatures. -/
def calibration_table : List (ℚ × ℚ × ℚ) :=
  [(2047, 150, -50), (2047, 60, -10), (16383, 60, -10)]

/-- The cached fields `__degree_celsius` and `__timestamp` of
`TsicInputChannel`. -/
structure TsicCache where
  degree_celsius : Option ℚ
  timestamp : Option ℚ
deriving Repr, DecidableEq

/-- Observable effects of one `TsicInputChannel.__packet_received` call:
the resulting cache, the Measurement constructed (if any), whether the
`__measure_waiting` waiters were notified, and whether an exception
escaped `__packet_received` itself. -/
structure PacketEffects where
  cache : TsicCache
  produced : Option Measurement
  notified : Bool
  raised : Bool
deriving Repr, DecidableEq

/-- `TsicInputChannel.__packet_received`.  The registered consumer
callback is modelled as `cb : Option (Measurement → Bool)` where the
result `true` means the callback raises an exception on that invocation;
in that case the exception propagates before `notifyAll` runs, so the
waiters are not notified.  `now` is the value of `time.time()`. -/
def packet_received (conv : List Nat → ℚ) (cb : Option (Measurement → Bool))
    (c : TsicCache) (status : Nat) (packet_bytes : List Nat) (now : ℚ) : PacketEffects :=
  if status = STATUS_OK ∧ packet_bytes.length = 2 then
    let c2 : TsicCache := ⟨some (conv packet_bytes), some now⟩
    let m : Measurement := ⟨c2.degree_celsius, c2.timestamp⟩
    match cb with
    | some f =>
      if f m then ⟨c2, some m, false, true⟩
      else ⟨c2, some m, true, false⟩
    | none => ⟨c2, some m, true, false⟩
  else ⟨c, none, false, false⟩

/-- `ZacWireInputChannel.__call_packet_callback`: the packet callback is
invoked inside `try`/`except`, so a raising callback is logged but never
re-raised.  `handler` returns whether the callback raised; the result is
`(callback raised and was logged, exception escapes the wrapper)` — the
second component is always `false` because of the `except` clause. -/
def call_packet_callback (handler : Nat → List Nat → Bool) (status : Nat)
    (packet_bytes : List Nat) : Bool × Bool :=
  (handler status packet_bytes, false)

/-- The state of a `TsicInputChannel`: the measurement cache, the embedded
ZACWire decoder state, whether listening is running, and whether a
consumer callback is registered. -/
structure TsicChannel where
  cache : TsicCache
  zac : ZState
  zacStarted : Bool
  callbackRegistered : Bool
deriving Repr, DecidableEq

/-- `ZacWireInputChannel.stop`: cancel watchdog and subscription, reset
the packet state, clear both tick memories. -/
def zacwire_stop (z : ZState) : ZState :=
  { reset_packet z with lastLowTick := none, lastHighTick := none }

/-- `TsicInputChannel.stop`: delegates to `ZacWireInputChannel.stop`. -/
def tsic_stop (c : TsicChannel) : TsicChannel :=
  { c with zac := zacwire_stop c.zac, zacStarted := false }

/-- `TsicInputChannel.start`: calls `stop`, registers the callback, then
starts the ZACWire channel (which stops it once more and subscribes). -/
def tsic_start (c : TsicChannel) (cb : Bool) : TsicChannel :=
  let c2 := tsic_stop c
  { c2 with callbackRegistered := cb, zac := zacwire_stop c2.zac, zacStarted := true }

/-- The `TsicInputChannel.measurement` property: a `Measurement` built
from the cached fields. -/
def measurement_property (c : TsicChannel) : Measurement :=
  ⟨c.cache.degree_celsius, c.cache.timestamp⟩

/-! ### Claim theorems -/

/-- C1. For every byte pair `(b0, b1)`, feeding the decoder (starting from
freshly reset state) the correctly timed edge-event sequence of a two-byte
packet — packet-start gap, per byte a calibration pulse, 8 data-bit pulses
classified against the calibration width and 1 even-parity-bit pulse, with
byte-separating gaps above the byte-start threshold, terminated by a
TIMEOUT event — causes exactly one invocation of the packet callback,
with status `STATUS_OK` and bytes `[b0, b1]`. -/
theorem zacwire_round_trip (b0 b1 : Nat) (h0 : b0 < 256) (h1 : b1 < 256) :
    (run_edges initState (frame_events b0 b1)).2 = [(STATUS_OK, [b0, b1])] := by
  have e1 : gpio_callback initState Level.high 0 =
      ⟨⟨none, some 0, none, 0, 0, none⟩, [], false⟩ := by rfl
  have e2 : gpio_callback ⟨none, some 0, none, 0, 0, none⟩ Level.low 2000 =
      ⟨⟨some 2000, some 0, none, 0, 0, some [0]⟩, [], false⟩ := by rfl
  obtain ⟨ll2, hB0⟩ := run_encode_byte b0 h0 2000 (some 0) []
  simp only [List.nil_append] at hB0
  have esep : gpio_callback
      ⟨ll2, some (end_tick (2000 + 10) (byte_bits b0)), some 10,
        (bitsOf b0).sum + parity_bit b0, 9, some [b0]⟩
      Level.low (end_tick (2000 + 10) (byte_bits b0) + 500) =
      ⟨⟨some (end_tick (2000 + 10) (byte_bits b0) + 500),
        some (end_tick (2000 + 10) (byte_bits b0)), none, 0, 0, some [b0, 0]⟩, [], false⟩ := by
    simp [gpio_callback, tickDiff_add]
  obtain ⟨ll3, hB1⟩ := run_encode_byte b1 h1 (end_tick (2000 + 10) (byte_bits b0) + 500)
    (some (end_tick (2000 + 10) (byte_bits b0))) [b0]
  simp only [List.cons_append, List.nil_append] at hB1
  have etm : gpio_callback
      ⟨ll3, some (end_tick (end_tick (2000 + 10) (byte_bits b0) + 500 + 10) (byte_bits b1)),
        some 10, (bitsOf b1).sum + parity_bit b1, 9, some [b0, b1]⟩
      Level.timeout (end_tick (2000 + 10) (byte_bits b0) + 600) =
      ⟨⟨ll3,
        some (end_tick (end_tick (2000 + 10) (byte_bits b0) + 500 + 10) (byte_bits b1)),
        none, 0, 0, none⟩, [(STATUS_OK, [b0, b1])], false⟩ := by
    simp [gpio_callback, pass_any_packet, reset_packet]
  have hfe : frame_events b0 b1 =
      [⟨Level.high, 0⟩] ++ ([⟨Level.low, 2000⟩] ++ (encode_byte 2000 b0 ++
        ([⟨Level.low, end_tick (2000 + 10) (byte_bits b0) + 500⟩] ++
          (encode_byte (end_tick (2000 + 10) (byte_bits b0) + 500) b1 ++
            [⟨Level.timeout, end_tick (2000 + 10) (byte_bits b0) + 600⟩])))) := by
    simp [frame_events]
  rw [hfe]
  simp only [run_edges_append, run_edges_single, e1, e2, hB0, esep, hB1, etm,
    List.append_nil, List.nil_append]

/-- C1 witness at the concrete byte pair (37, 200). -/
theorem zacwire_round_trip_witness :
    37 < 256 ∧ 200 < 256 ∧
      (run_edges initState (frame_events 37 200)).2 = [(STATUS_OK, [37, 200])] :=
  ⟨by decide, by decide, zacwire_round_trip 37 200 (by decide) (by decide)⟩

/-- C2 counterexample: a low pulse exactly as long as the 10-tick
calibration width decodes as bit 1 (the active byte becomes 1), not as
bit 0 as the claim states for a pulse that is not strictly shorter. -/
theorem equal_width_decodes_as_one :
    (gpio_callback ⟨some 0, none, some 10, 0, 0, some [0]⟩ Level.high 10).state.receivedBytes
        = some [1] ∧
      (gpio_callback ⟨some 0, none, some 10, 0, 0, some [0]⟩ Level.high 10).state.parity = 1 :=
  ⟨rfl, rfl⟩

/-- C2 (amended): while a byte is in progress with calibration width
recorded and fewer than 8 bits received, a rising edge decodes the bit as
1 when the measured low-pulse width is less than or equal to the
calibration width and as 0 when it is strictly greater, shifting the bit
into the active byte. -/
theorem bit_classification (lh : Option Nat) (p k t w bt : Nat) (bs : List Nat)
    (hk : k < 8) :
    (gpio_callback ⟨some t, lh, some bt, p, k, some bs⟩ Level.high (t + w)).state.receivedBytes
      = some (update_last bs (fun a => a * 2 + (if w ≤ bt then 1 else 0))) := by
  rw [step_high_data lh p k t w bt bs hk]
  have h : (if bt < w then 0 else 1) = (if w ≤ bt then 1 else 0) := by
    split_ifs <;> omega
  rw [h]

/-- C2 witness: a 7-tick pulse against a 10-tick calibration width. -/
theorem bit_classification_witness :
    0 < 8 ∧
      (gpio_callback ⟨some 5, none, some 10, 0, 0, some [0]⟩ Level.high (5 + 7)).state.receivedBytes
        = some (update_last [0] (fun a => a * 2 + (if 7 ≤ 10 then 1 else 0))) :=
  ⟨by decide, bit_classification none 0 0 5 7 10 [0] (by decide)⟩

/-- C3: when the ninth pulse of a byte arrives and the accumulated 1-count
is odd, the frame is flushed with `STATUS_PARITY_ERROR` and the packet
state reset; the downstream `packet_received` then leaves the cache
unchanged and produces no Measurement. -/
theorem parity_error_rejected (lh : Option Nat) (p t w bt : Nat) (bs : List Nat)
    (conv : List Nat → ℚ) (cb : Option (Measurement → Bool)) (c : TsicCache) (now : ℚ)
    (hodd : (p + (if bt < w then 0 else 1)) % 2 = 1) :
    (gpio_callback ⟨some t, lh, some bt, p, 8, some bs⟩ Level.high (t + w)).emits
        = [(STATUS_PARITY_ERROR, bs)] ∧
      (gpio_callback ⟨some t, lh, some bt, p, 8, some bs⟩ Level.high (t + w)).state
        = ⟨some t, some (t + w), none, 0, 0, none⟩ ∧
      packet_received conv cb c STATUS_PARITY_ERROR bs now = ⟨c, none, false, false⟩ := by
  have hodd2 : (p + (if bt < w then 0 else 1)) % 2 ≠ 0 := by omega
  refine ⟨?_, ?_, ?_⟩
  · rw [step_high_parity_odd lh p t w bt bs hodd2]
  · rw [step_high_parity_odd lh p t w bt bs hodd2]
  · simp [packet_received, STATUS_PARITY_ERROR, STATUS_OK]

/-- C3 witness: one accumulated 1-bit followed by a 0 parity bit. -/
theorem parity_error_rejected_witness :
    (1 + (if 10 < 20 then 0 else 1)) % 2 = 1 ∧
      ((gpio_callback ⟨some 0, none, some 10, 1, 8, some [5]⟩ Level.high (0 + 20)).emits
          = [(STATUS_PARITY_ERROR, [5])] ∧
        (gpio_callback ⟨some 0, none, some 10, 1, 8, some [5]⟩ Level.high (0 + 20)).state
          = ⟨some 0, some (0 + 20), none, 0, 0, none⟩ ∧
        packet_received TSIC206.bytes_to_degree_celcius none ⟨none, none⟩
            STATUS_PARITY_ERROR [5] 0 = ⟨⟨none, none⟩, none, false, false⟩) :=
  ⟨by decide,
    parity_error_rejected none 1 0 20 10 [5] TSIC206.bytes_to_degree_celcius none
      ⟨none, none⟩ 0 (by decide)⟩

/-- C4: a falling edge whose preceding high gap exceeds the byte-start
threshold (150) but not the packet-start threshold (1000) while a frame is
in progress starts a new byte when the bit count is exactly 9 — resetting
calibration width, bit count and parity — and otherwise flushes the frame
with `STATUS_BIT_COUNT_ERROR` and resets the decoder to the idle state. -/
theorem byte_boundary (ll btk : Option Nat) (p k t g : Nat) (bs : List Nat)
    (h1 : 150 < g) (h2 : g ≤ 1000) :
    gpio_callback ⟨ll, some t, btk, p, k, some bs⟩ Level.low (t + g) =
      if k = 9 then
        ⟨⟨some (t + g), some t, none, 0, 0, some (bs ++ [0])⟩, [], false⟩
      else
        ⟨⟨some (t + g), some t, none, 0, 0, none⟩, [(STATUS_BIT_COUNT_ERROR, bs)], false⟩ := by
  have hn : ¬ 1000 < g := by omega
  by_cases hk : k = 9
  · simp [gpio_callback, tickDiff_add, hn, h1, hk]
  · simp [gpio_callback, tickDiff_add, hn, h1, hk, pass_any_packet, reset_packet]

/-- C4 witness: a 500-tick gap after a 9-bit byte. -/
theorem byte_boundary_witness :
    150 < 500 ∧ 500 ≤ 1000 ∧
      gpio_callback ⟨none, some 100, some 10, 2, 9, some [7]⟩ Level.low (100 + 500) =
        (if 9 = 9 then
          ⟨⟨some (100 + 500), some 100, none, 0, 0, some ([7] ++ [0])⟩, [], false⟩
        else
          ⟨⟨some (100 + 500), some 100, none, 0, 0, none⟩,
            [(STATUS_BIT_COUNT_ERROR, [7])], false⟩) :=
  ⟨by decide, by decide, byte_boundary none (some 10) 2 9 100 500 [7] (by decide) (by decide)⟩

/-- C5: `packet_received` updates the cache and constructs a Measurement
exactly when the frame status is `STATUS_OK` and it has exactly 2 bytes;
for every other frame the cache is unchanged, no Measurement is
constructed (so nothing is delivered to the callback), and no waiter is
notified. -/
theorem measurement_iff_ok_two_bytes (conv : List Nat → ℚ)
    (cb : Option (Measurement → Bool)) (c : TsicCache) (status : Nat)
    (packet_bytes : List Nat) (now : ℚ) :
    (packet_received conv cb c status packet_bytes now).cache
        = (if status = STATUS_OK ∧ packet_bytes.length = 2
            then ⟨some (conv packet_bytes), some now⟩ else c) ∧
      (packet_received conv cb c status packet_bytes now).produced
        = (if status = STATUS_OK ∧ packet_bytes.length = 2
            then some ⟨some (conv packet_bytes), some now⟩ else none) ∧
      ((packet_received conv cb c status packet_bytes now).notified = false
        ∨ (status = STATUS_OK ∧ packet_bytes.length = 2)) := by
  by_cases h : status = STATUS_OK ∧ packet_bytes.length = 2
  · rcases cb with _ | f
    · simp [packet_received, h]
    · by_cases hf : f ⟨some (conv packet_bytes), some now⟩ <;>
        simp [packet_received, h, hf]
  · simp [packet_received, h]

/-- C6: for every profile in the calibration table the raw-to-Celsius
conversion is strictly increasing in the raw value over `[0, 2 ^ bits - 1]`,
maps raw 0 to the low temperature and the maximal raw value to the high
temperature. -/
theorem calibration_monotone (d ht lt : ℚ) (hp : (d, ht, lt) ∈ calibration_table)
    (r1 r2 : ℚ) (_h0 : 0 ≤ r1) (h12 : r1 < r2) (h2 : r2 ≤ d) :
    tsic_raw_to_celsius d ht lt r1 < tsic_raw_to_celsius d ht lt r2 ∧
      tsic_raw_to_celsius d ht lt 0 = lt ∧
      tsic_raw_to_celsius d ht lt d = ht := by
  simp [calibration_table, Prod.ext_iff] at hp
  rcases hp with ⟨hd, hh, hl⟩ | ⟨hd, hh, hl⟩ | ⟨hd, hh, hl⟩ <;> subst hd <;> subst hh <;>
    subst hl <;>
    refine ⟨?_, by norm_num [tsic_raw_to_celsius], by norm_num [tsic_raw_to_celsius]⟩ <;>
    · simp only [tsic_raw_to_celsius]
      norm_num
      linarith

/-- C6 witness: the TSic 206/306 profile on raw values 0 and 2047. -/
theorem calibration_monotone_witness :
    ((2047 : ℚ), (150 : ℚ), (-50 : ℚ)) ∈ calibration_table ∧
      (0 : ℚ) ≤ 0 ∧ (0 : ℚ) < 2047 ∧ (2047 : ℚ) ≤ 2047 ∧
      (tsic_raw_to_celsius 2047 150 (-50) 0 < tsic_raw_to_celsius 2047 150 (-50) 2047 ∧
        tsic_raw_to_celsius 2047 150 (-50) 0 = -50 ∧
        tsic_raw_to_celsius 2047 150 (-50) 2047 = 150) :=
  ⟨by simp [calibration_table], by norm_num, by norm_num, by norm_num,
    calibration_monotone 2047 150 (-50) (by simp [calibration_table]) 0 2047
      (by norm_num) (by norm_num) (by norm_num)⟩

/-- C7 counterexample: after a packet start, a calibration pulse and one
single data-bit pulse, the decoder holds a frame whose byte has bit count
1; the watchdog TIMEOUT then flushes this frame with status `STATUS_OK`,
closing its only byte with 1 received bit instead of 9. -/
theorem ok_flush_with_incomplete_byte :
    (run_edges initState
        [⟨Level.high, 0⟩, ⟨Level.low, 2000⟩, ⟨Level.high, 2010⟩,
          ⟨Level.low, 2060⟩, ⟨Level.high, 2065⟩]).1.bitCount = 1 ∧
      (run_edges initState
        [⟨Level.high, 0⟩, ⟨Level.low, 2000⟩, ⟨Level.high, 2010⟩,
          ⟨Level.low, 2060⟩, ⟨Level.high, 2065⟩]).1.receivedBytes = some [1] ∧
      (gpio_callback
        (run_edges initState
          [⟨Level.high, 0⟩, ⟨Level.low, 2000⟩, ⟨Level.high, 2010⟩,
            ⟨Level.low, 2060⟩, ⟨Level.high, 2065⟩]).1 Level.timeout 3065).emits
        = [(STATUS_OK, [1])] :=
  ⟨rfl, rfl, rfl⟩

/-- C7 (amended): byte count and bit count are reset together, and a byte
is closed by a byte boundary only with exactly 9 received bits: whenever
an event of the decoder grows the byte accumulator of an in-progress
frame, the bit count was exactly 9 and the new byte starts at 0.  (Frames
flushed with `STATUS_OK` at a packet-start gap or a TIMEOUT may still
emit a trailing byte with fewer than 9 bits.) -/
theorem byte_append_needs_nine (s : ZState) (level : Level) (tick : Nat) (bs bs2 : List Nat)
    (hrb : s.receivedBytes = some bs) (hne : 0 < bs.length)
    (hgrow : (gpio_callback s level tick).state.receivedBytes = some bs2)
    (hlen : bs2.length = bs.length + 1) :
    s.bitCount = 9 ∧ bs2 = bs ++ [0] := by
  obtain ⟨ll, lh, btk, p, k, rb⟩ := s
  simp only at hrb
  subst hrb
  cases level with
  | low =>
    cases lh with
    | none =>
      simp [gpio_callback] at hgrow
      subst hgrow
      omega
    | some lht =>
      by_cases hT : 1000 < tickDiff lht tick
      · simp [gpio_callback, hT, pass_any_packet] at hgrow
        subst hgrow
        simp_all
      · by_cases hB : 150 < tickDiff lht tick
        · by_cases hk : k = 9
          · simp only at hk
            simp [gpio_callback, hT, hB, hk] at hgrow
            exact ⟨hk, hgrow.symm⟩
          · simp [gpio_callback, hT, hB, hk, pass_any_packet, reset_packet] at hgrow
        · simp [gpio_callback, hT, hB] at hgrow
          subst hgrow
          omega
  | high =>
    cases ll with
    | none =>
      simp [gpio_callback] at hgrow
      subst hgrow
      omega
    | some llt =>
      cases btk with
      | none =>
        simp [gpio_callback] at hgrow
        subst hgrow
        omega
      | some bt =>
        by_cases h9 : k + 1 = 9
        · by_cases hp : (p + if bt < tickDiff llt tick then 0 else 1) % 2 = 0
          · simp [gpio_callback, h9, check_parity, hp] at hgrow
            by_cases hk8 : k < 8
            · simp [hk8] at hgrow
              subst hgrow
              rw [update_last_length] at hlen
              omega
            · simp [hk8] at hgrow
              subst hgrow
              omega
          · simp [gpio_callback, h9, check_parity, hp, pass_any_packet,
              reset_packet] at hgrow
        · by_cases h10 : k + 1 > 9
          · simp [gpio_callback, h9, h10, pass_any_packet, reset_packet] at hgrow
          · simp [gpio_callback, h9, h10] at hgrow
            by_cases hk8 : k < 8
            · simp [hk8] at hgrow
              subst hgrow
              rw [update_last_length] at hlen
              omega
            · simp [hk8] at hgrow
              subst hgrow
              omega
  | timeout =>
    simp [gpio_callback, pass_any_packet, reset_packet] at hgrow

/-- C7 witness: a 500-tick byte gap after a completed 9-bit byte grows
the accumulator by a fresh zero byte. -/
theorem byte_append_needs_nine_witness :
    (⟨none, some 100, some 10, 2, 9, some [7]⟩ : ZState).receivedBytes = some [7] ∧
      0 < [7].length ∧
      (gpio_callback ⟨none, some 100, some 10, 2, 9, some [7]⟩
          Level.low 600).state.receivedBytes = some [7, 0] ∧
      [7, 0].length = [7].length + 1 ∧
      ((⟨none, some 100, some 10, 2, 9, some [7]⟩ : ZState).bitCount = 9 ∧
        [7, 0] = [7] ++ [0]) :=
  ⟨rfl, by decide, by decide, by decide,
    byte_append_needs_nine ⟨none, some 100, some 10, 2, 9, some [7]⟩ Level.low 600
      [7] [7, 0] rfl (by decide) (by decide) (by decide)⟩

/-- C8 counterexample: with a consumer callback that raises, an OK 2-byte
frame updates the cache but the `__measure_waiting` notification is
skipped — the exception leaves `__packet_received` before `notifyAll`
runs — contradicting the claim that the notification still takes place. -/
theorem raising_callback_skips_notify :
    (packet_received (fun _ => 0) (some (fun _ => true)) ⟨none, none⟩
        STATUS_OK [1, 2] 0).notified = false ∧
      (packet_received (fun _ => 0) (some (fun _ => true)) ⟨none, none⟩
        STATUS_OK [1, 2] 0).raised = true ∧
      (packet_received (fun _ => 0) (some (fun _ => true)) ⟨none, none⟩
        STATUS_OK [1, 2] 0).cache = ⟨some 0, some 0⟩ :=
  ⟨rfl, rfl, rfl⟩

/-- C8 (amended): for every OK 2-byte frame delivered while the registered
consumer callback raises, the cache update still takes place and the
exception is caught in the ZacWire-level wrapper — it never escapes to the
GPIO event dispatcher — while the decoder's packet accumulator is cleared
as usual; the `measure_once` waiters, however, are not notified. -/
theorem raising_callback_isolated (conv : List Nat → ℚ) (f : Measurement → Bool)
    (c : TsicCache) (z : ZState) (packet_bytes : List Nat) (now : ℚ) (bs : List Nat)
    (h2 : packet_bytes.length = 2)
    (hf : f ⟨some (conv packet_bytes), some now⟩ = true) :
    (packet_received conv (some f) c STATUS_OK packet_bytes now).cache
        = ⟨some (conv packet_bytes), some now⟩ ∧
      (packet_received conv (some f) c STATUS_OK packet_bytes now).raised = true ∧
      (packet_received conv (some f) c STATUS_OK packet_bytes now).notified = false ∧
      (call_packet_callback
          (fun st bl => (packet_received conv (some f) c st bl now).raised)
          STATUS_OK packet_bytes).2 = false ∧
      (pass_any_packet { z with receivedBytes := some bs } STATUS_OK).1.receivedBytes
        = none := by
  refine ⟨?_, ?_, ?_, rfl, rfl⟩ <;> simp [packet_received, h2, hf, STATUS_OK]

/-- C8 witness: an always-raising callback on the frame [1, 2]. -/
theorem raising_callback_isolated_witness :
    ([1, 2] : List Nat).length = 2 ∧
      (fun (_ : Measurement) => true) ⟨some ((fun _ => (0 : ℚ)) [1, 2]), some (0 : ℚ)⟩
        = true ∧
      ((packet_received (fun _ => 0) (some (fun _ => true)) ⟨none, none⟩
            STATUS_OK [1, 2] 0).cache = ⟨some ((fun _ => (0 : ℚ)) [1, 2]), some 0⟩ ∧
        (packet_received (fun _ => 0) (some (fun _ => true)) ⟨none, none⟩
            STATUS_OK [1, 2] 0).raised = true ∧
        (packet_received (fun _ => 0) (some (fun _ => true)) ⟨none, none⟩
            STATUS_OK [1, 2] 0).notified = false ∧
        (call_packet_callback
            (fun st bl => (packet_received (fun _ => 0) (some (fun _ => true))
                ⟨none, none⟩ st bl 0).raised) STATUS_OK [1, 2]).2 = false ∧
        (pass_any_packet { initState with receivedBytes := some [9] }
            STATUS_OK).1.receivedBytes = none) :=
  ⟨rfl, rfl,
    raising_callback_isolated (fun _ => 0) (fun _ => true) ⟨none, none⟩ initState
      [1, 2] 0 [9] rfl rfl⟩

/-- C9 counterexample: a ninth bit completing a byte with odd accumulated
parity flushes a parity error — and the watchdog is still armed, because
`set_watchdog(gpio, 1)` runs after `__check_parity` unconditionally. -/
theorem watchdog_armed_after_parity_error :
    (gpio_callback ⟨some 0, none, some 10, 1, 8, some [3]⟩ Level.high 20).armed = true ∧
      (gpio_callback ⟨some 0, none, some 10, 1, 8, some [3]⟩ Level.high 20).emits
        = [(STATUS_PARITY_ERROR, [3])] :=
  ⟨rfl, rfl⟩

/-- C9 (amended): while a byte is in progress with calibration width
recorded, a rising edge arms the ~1 ms watchdog exactly when it brings
the bit counter to 9 — regardless of the parity outcome. -/
theorem watchdog_armed_iff_ninth_bit (lh : Option Nat) (p k t w bt : Nat) (bs : List Nat) :
    (gpio_callback ⟨some t, lh, some bt, p, k, some bs⟩ Level.high (t + w)).armed
      = decide (k + 1 = 9) := by
  by_cases h9 : k + 1 = 9
  · have hk : k = 8 := by omega
    subst hk
    by_cases hp : (p + (if bt < w then 0 else 1)) % 2 = 0
    · rw [step_high_parity_even lh p t w bt bs hp]
      simp
    · rw [step_high_parity_odd lh p t w bt bs hp]
      simp
  · by_cases h10 : k + 1 > 9
    · simp [gpio_callback, tickDiff_add, h9, h10, pass_any_packet, reset_packet]
    · have hk : k < 8 := by omega
      rw [step_high_data lh p k t w bt bs hk]
      simp [h9]

/-- C10: `stop` and `start` of `TsicInputChannel` never modify the cached
measurement fields, so once a channel has produced a Measurement, the
`measurement` property after `stop` (or after a restart, before the next
frame) still returns the last decoded reading instead of the undefined
sentinel. -/
theorem stop_start_preserve_measurement (c : TsicChannel) (cb : Bool) (d ts : ℚ)
    (hd : c.cache.degree_celsius = some d) (ht : c.cache.timestamp = some ts) :
    (tsic_stop c).cache = c.cache ∧
      (tsic_start c cb).cache = c.cache ∧
      measurement_property (tsic_stop c) = measurement_property c ∧
      measurement_property (tsic_start (tsic_stop c) cb) = measurement_property c ∧
      measurement_property (tsic_stop c) = ⟨some d, some ts⟩ := by
  refine ⟨rfl, rfl, rfl, rfl, ?_⟩
  simp [measurement_property, tsic_stop, hd, ht]

/-- C10 witness: a channel caching 21 °C at timestamp 1000. -/
theorem stop_start_preserve_measurement_witness :
    (⟨⟨some 21, some 1000⟩, initState, true, false⟩ : TsicChannel).cache.degree_celsius
        = some 21 ∧
      (⟨⟨some 21, some 1000⟩, initState, true, false⟩ : TsicChannel).cache.timestamp
        = some 1000 ∧
      ((tsic_stop ⟨⟨some 21, some 1000⟩, initState, true, false⟩).cache
          = (⟨⟨some 21, some 1000⟩, initState, true, false⟩ : TsicChannel).cache ∧
        (tsic_start ⟨⟨some 21, some 1000⟩, initState, true, false⟩ false).cache
          = (⟨⟨some 21, some 1000⟩, initState, true, false⟩ : TsicChannel).cache ∧
        measurement_property (tsic_stop ⟨⟨some 21, some 1000⟩, initState, true, false⟩)
          = measurement_property ⟨⟨some 21, some 1000⟩, initState, true, false⟩ ∧
        measurement_property
            (tsic_start (tsic_stop ⟨⟨some 21, some 1000⟩, initState, true, false⟩) false)
          = measurement_property ⟨⟨some 21, some 1000⟩, initState, true, false⟩ ∧
        measurement_property (tsic_stop ⟨⟨some 21, some 1000⟩, initState, true, false⟩)
          = ⟨some 21, some 1000⟩) :=
  ⟨rfl, rfl,
    stop_start_preserve_measurement ⟨⟨some 21, some 1000⟩, initState, true, false⟩
      false 21 1000 rfl rfl⟩

end DataLogger
